import Mathlib

/-!
Shallow embedding of the recruitment matching engine of the mycricmate
backend (src/backend/routers/teams.py, src/backend/routers/players.py,
src/backend/models.py, src/backend/schemas.py), together with proofs that
settle the specification claims about it.

Conventions of the embedding:
- UUIDs are modelled as `Nat` identifiers; `datetime` values as `Int`
  seconds (so `timedelta(days=7)` is `7*86400`).
- A SQLAlchemy session is modelled as an explicit `DB` record of lists;
  `query(...).filter(...).first()` is `List.find?` in insertion order and
  `db.add` appends.
- `HTTPException` is modelled by `HTTPError`; since a handler can commit a
  write and then raise (respond_to_invitation does), every endpoint returns
  an `OpResult` carrying the post-state in both the ok and the error case.
- Profile-only columns that no recruitment endpoint reads (description,
  city, logo_url, preferred_formats, timestamps, ...) are omitted from the
  records; every field an endpoint reads or writes is present.
-/

namespace MyCricMate

/-- models.py `ApplicationStatus`. -/
inductive ApplicationStatus where
  | pending
  | accepted
  | rejected
  | withdrawn
  deriving DecidableEq, Repr

/-- models.py `InvitationStatus`. -/
inductive InvitationStatus where
  | pending
  | accepted
  | declined
  | expired
  deriving DecidableEq, Repr

/-- models.py `User` (the fields the recruitment endpoints read). -/
structure User where
  id : Nat
  roles : List String
  full_name : String
  deriving DecidableEq, Repr

/-- models.py `Team` (recruitment-relevant columns). -/
structure Team where
  id : Nat
  name : String
  captain_id : Nat
  is_active : Bool
  max_players : Int
  current_player_count : Int
  is_squad_full : Bool
  deriving DecidableEq, Repr

/-- models.py `TeamApplication`. -/
structure TeamApplication where
  id : Nat
  team_id : Nat
  player_id : Nat
  status : ApplicationStatus
  message : Option String
  deriving DecidableEq, Repr

/-- models.py `TeamInvitation`. -/
structure TeamInvitation where
  id : Nat
  team_id : Nat
  player_id : Nat
  invited_by : Nat
  status : InvitationStatus
  message : Option String
  expires_at : Int
  deriving DecidableEq, Repr

/-- The database state visible to the recruitment endpoints. `next_id`
models the id generator (`default=uuid.uuid4`). -/
structure DB where
  users : List User
  teams : List Team
  applications : List TeamApplication
  invitations : List TeamInvitation
  next_id : Nat
  deriving DecidableEq, Repr

/-- `fastapi.HTTPException`: status code plus detail string. -/
structure HTTPError where
  status_code : Nat
  detail : String
  deriving DecidableEq, Repr

/-- Outcome of one endpoint call. The error case still carries a database
state because a handler may commit before raising. -/
inductive OpResult (α : Type) where
  | ok (db : DB) (val : α)
  | err (db : DB) (e : HTTPError)
  deriving DecidableEq, Repr

/-- The database state after the call, whatever the outcome. -/
def OpResult.state {α : Type} : OpResult α → DB
  | .ok db _ => db
  | .err db _ => db

/-! ### Session helpers: lookups and row updates -/

/-- `db.query(Team).filter(Team.id == tid).first()`. -/
def findTeam (db : DB) (tid : Nat) : Option Team :=
  db.teams.find? (fun t => t.id == tid)

/-- `db.query(User).filter(User.id == uid).first()`. -/
def findUser (db : DB) (uid : Nat) : Option User :=
  db.users.find? (fun u => u.id == uid)

/-- Overwrite the team row with the matching id (the ORM mutates the row
in place; `commit` persists it). -/
def putTeam (db : DB) (t : Team) : DB :=
  { db with teams := db.teams.map (fun u => if u.id == t.id then t else u) }

/-- Overwrite the application row with the matching id. -/
def putApp (db : DB) (a : TeamApplication) : DB :=
  { db with applications :=
      db.applications.map (fun b => if b.id == a.id then a else b) }

/-- Overwrite the invitation row with the matching id. -/
def putInv (db : DB) (i : TeamInvitation) : DB :=
  { db with invitations :=
      db.invitations.map (fun j => if j.id == i.id then i else j) }

/-- Is there a PENDING invitation for the (team, player) pair? -/
def hasPendingInv (db : DB) (tid pid : Nat) : Bool :=
  db.invitations.any
    (fun i => i.team_id == tid && i.player_id == pid &&
      i.status == InvitationStatus.pending)

/-- Is there a PENDING application for the (team, player) pair? -/
def hasPendingApp (db : DB) (tid pid : Nat) : Bool :=
  db.applications.any
    (fun a => a.team_id == tid && a.player_id == pid &&
      a.status == ApplicationStatus.pending)

/-- All stored applications for the (team, player) pair, any status. -/
def appsFor (db : DB) (tid pid : Nat) : List TeamApplication :=
  db.applications.filter (fun a => a.team_id == tid && a.player_id == pid)

/-! ### Endpoints (routers/teams.py and routers/players.py) -/

/-- schemas.py `TeamCreate` (recruitment-relevant fields). -/
structure TeamCreatePayload where
  name : String
  max_players : Int
  deriving DecidableEq, Repr

/-- `POST /teams` — create_team (teams.py). -/
def create_team (db : DB) (payload : TeamCreatePayload) (current_user : User) :
    OpResult Team :=
  if !(current_user.roles.contains "captain") then
    .err db ⟨403, "Only captains can create teams"⟩
  else
    let db_team : Team :=
      { id := db.next_id, name := payload.name, captain_id := current_user.id
        is_active := true, max_players := payload.max_players
        current_player_count := 0, is_squad_full := false }
    .ok { db with teams := db.teams ++ [db_team], next_id := db.next_id + 1 }
      db_team

/-- schemas.py `TeamUpdate` (recruitment-relevant optional fields; the
profile-text fields it also carries touch no state the claims mention). -/
structure TeamUpdatePatch where
  name : Option String
  is_active : Option Bool
  max_players : Option Int
  deriving DecidableEq, Repr

/-- `PUT /teams/{team_id}` — update_team (teams.py): per-field patch of the
supplied fields only (`exclude_unset=True`). -/
def update_team (db : DB) (team_id : Nat) (patch : TeamUpdatePatch)
    (current_user : User) : OpResult Team :=
  match findTeam db team_id with
  | none => .err db ⟨404, "Team not found"⟩
  | some db_team =>
    if db_team.captain_id != current_user.id then
      .err db ⟨403, "Only the team captain can update team details"⟩
    else
      let t : Team :=
        { db_team with
          name := patch.name.getD db_team.name
          is_active := patch.is_active.getD db_team.is_active
          max_players := patch.max_players.getD db_team.max_players }
      .ok (putTeam db t) t

/-- `POST /teams/{team_id}/mark-squad-full` — mark_squad_full (teams.py). -/
def mark_squad_full (db : DB) (team_id : Nat) (is_squad_full : Bool)
    (current_user : User) : OpResult Team :=
  match findTeam db team_id with
  | none => .err db ⟨404, "Team not found"⟩
  | some team =>
    if team.captain_id != current_user.id then
      .err db ⟨403, "Only the team captain can mark squad status"⟩
    else
      let team' := { team with is_squad_full := is_squad_full }
      .ok (putTeam db team') team'

/-- `POST /teams/{team_id}/invite` — invite_player_to_team (teams.py).
`now` stands for `datetime.utcnow()`. -/
def invite_player_to_team (db : DB) (team_id : Nat) (player_id : Nat)
    (message : Option String) (current_user : User) (now : Int) :
    OpResult TeamInvitation :=
  match findTeam db team_id with
  | none => .err db ⟨404, "Team not found"⟩
  | some team =>
    if team.captain_id != current_user.id then
      .err db ⟨403, "Only the team captain can invite players"⟩
    else if team.is_squad_full then
      .err db ⟨400, "Team squad is full"⟩
    else
      match findUser db player_id with
      | none => .err db ⟨404, "Player not found"⟩
      | some player =>
        if !(player.roles.contains "player") then
          .err db ⟨404, "Player not found"⟩
        else if hasPendingInv db team_id player_id then
          .err db ⟨400, "Player already has a pending invitation"⟩
        else
          let db_invitation : TeamInvitation :=
            { id := db.next_id, team_id := team_id, player_id := player_id
              invited_by := current_user.id
              status := InvitationStatus.pending, message := message
              expires_at := now + 7 * 86400 }
          .ok { db with invitations := db.invitations ++ [db_invitation]
                        next_id := db.next_id + 1 } db_invitation

/-- `POST /teams/applications/{id}/approve` — approve_application
(teams.py). The source reads `team.captain_id` without a `None` check, so
a dangling team reference is an unhandled exception (a 500). -/
def approve_application (db : DB) (application_id : Nat)
    (current_user : User) : OpResult TeamApplication :=
  match db.applications.find? (fun a => a.id == application_id) with
  | none => .err db ⟨404, "Application not found"⟩
  | some application =>
    match findTeam db application.team_id with
    | none => .err db ⟨500, "AttributeError"⟩
    | some team =>
      if team.captain_id != current_user.id then
        .err db ⟨403, "Only the team captain can approve applications"⟩
      else if team.is_squad_full then
        .err db ⟨400, "Team squad is full"⟩
      else
        let application' := { application with
          status := ApplicationStatus.accepted }
        let count' := team.current_player_count + 1
        let team' := { team with
          current_player_count := count'
          is_squad_full :=
            if team.max_players ≤ count' then true else team.is_squad_full }
        .ok (putApp (putTeam db team') application') application'

/-- `POST /teams/applications/{id}/reject` — reject_application
(teams.py). -/
def reject_application (db : DB) (application_id : Nat)
    (current_user : User) : OpResult TeamApplication :=
  match db.applications.find? (fun a => a.id == application_id) with
  | none => .err db ⟨404, "Application not found"⟩
  | some application =>
    match findTeam db application.team_id with
    | none => .err db ⟨500, "AttributeError"⟩
    | some team =>
      if team.captain_id != current_user.id then
        .err db ⟨403, "Only the team captain can reject applications"⟩
      else
        let application' := { application with
          status := ApplicationStatus.rejected }
        .ok (putApp db application') application'

/-- `POST /players/teams/{team_id}/apply` — apply_to_team (players.py). -/
def apply_to_team (db : DB) (team_id : Nat) (message : Option String)
    (current_user : User) : OpResult TeamApplication :=
  match findTeam db team_id with
  | none => .err db ⟨404, "Team not found"⟩
  | some _team =>
    if db.applications.any (fun a => a.team_id == team_id &&
        a.player_id == current_user.id &&
        a.status == ApplicationStatus.pending) then
      .err db ⟨400, "You have already applied to this team"⟩
    else
      let new_application : TeamApplication :=
        { id := db.next_id, team_id := team_id, player_id := current_user.id
          status := ApplicationStatus.pending, message := message }
      .ok { db with applications := db.applications ++ [new_application]
                    next_id := db.next_id + 1 } new_application

/-- `DELETE /players/applications/{id}` — withdraw_application
(players.py): the lookup is filtered by `and_(id == ..., player_id ==
current_user.id)`, so a non-owner sees the same 404 as an absent row. -/
def withdraw_application (db : DB) (application_id : Nat)
    (current_user : User) : OpResult String :=
  match db.applications.find? (fun a => a.id == application_id &&
      a.player_id == current_user.id) with
  | none => .err db ⟨404, "Application not found"⟩
  | some application =>
    if application.status != ApplicationStatus.pending then
      .err db ⟨400, "Can only withdraw pending applications"⟩
    else
      .ok (putApp db { application with status := ApplicationStatus.withdrawn })
        "Application withdrawn successfully"

/-- `PUT /players/invitations/{id}` — respond_to_invitation (players.py):
the body `TeamInvitationUpdate` supplies any member of `InvitationStatus`,
stored verbatim; an expired pending invitation is committed to `expired`
before the 400 is raised. -/
def respond_to_invitation (db : DB) (invitation_id : Nat)
    (response_status : InvitationStatus) (current_user : User) (now : Int) :
    OpResult TeamInvitation :=
  match db.invitations.find? (fun i => i.id == invitation_id &&
      i.player_id == current_user.id) with
  | none => .err db ⟨404, "Invitation not found"⟩
  | some invitation =>
    if invitation.status != InvitationStatus.pending then
      .err db ⟨400, "Invitation has already been responded to"⟩
    else if invitation.expires_at < now then
      .err (putInv db { invitation with status := InvitationStatus.expired })
        ⟨400, "Invitation has expired"⟩
    else
      let invitation' := { invitation with status := response_status }
      .ok (putInv db invitation') invitation'

/-- `POST /players/teams/{team_id}/swipe-right` —
player_swipe_right_on_team (players.py). The result value is the
`matched` boolean of the response. -/
def player_swipe_right_on_team (db : DB) (team_id : Nat)
    (current_user : User) : OpResult Bool :=
  match findTeam db team_id with
  | none => .err db ⟨404, "Team not found"⟩
  | some _team =>
    let existing := db.applications.find? (fun a => a.team_id == team_id &&
      a.player_id == current_user.id)
    let db1 :=
      match existing with
      | some _ => db
      | none =>
        let new_app : TeamApplication :=
          { id := db.next_id, team_id := team_id
            player_id := current_user.id
            status := ApplicationStatus.pending, message := none }
        { db with applications := db.applications ++ [new_app]
                  next_id := db.next_id + 1 }
    .ok db1 (hasPendingInv db1 team_id current_user.id)

/-- `POST /players/players/{player_id}/swipe-right` —
captain_swipe_right_on_player (players.py). -/
def captain_swipe_right_on_player (db : DB) (player_id : Nat)
    (current_user : User) (now : Int) : OpResult Bool :=
  match db.teams.find? (fun t => t.captain_id == current_user.id) with
  | none => .err db ⟨400, "You must have a team to invite players"⟩
  | some team =>
    match findUser db player_id with
    | none => .err db ⟨404, "Player not found"⟩
    | some _player =>
      let existing := db.invitations.find? (fun i => i.team_id == team.id &&
        i.player_id == player_id && i.status == InvitationStatus.pending)
      let db1 :=
        match existing with
        | some _ => db
        | none =>
          let new_inv : TeamInvitation :=
            { id := db.next_id, team_id := team.id, player_id := player_id
              invited_by := current_user.id
              status := InvitationStatus.pending, message := none
              expires_at := now + 30 * 86400 }
          { db with invitations := db.invitations ++ [new_inv]
                    next_id := db.next_id + 1 }
      .ok db1 (hasPendingApp db1 team.id player_id)

/-! ### The public operation set and sequences of calls -/

/-- One public recruitment operation with its arguments (the caller is the
authenticated `current_user`). -/
inductive Op where
  | applyOp (caller : User) (team_id : Nat) (message : Option String)
  | withdrawOp (caller : User) (application_id : Nat)
  | approveOp (caller : User) (application_id : Nat)
  | rejectOp (caller : User) (application_id : Nat)
  | inviteOp (caller : User) (team_id player_id : Nat)
      (message : Option String) (now : Int)
  | respondOp (caller : User) (invitation_id : Nat)
      (response_status : InvitationStatus) (now : Int)
  | swipeAppOp (caller : User) (team_id : Nat)
  | swipeInvOp (caller : User) (player_id : Nat) (now : Int)
  | markSquadFullOp (caller : User) (team_id : Nat) (flag : Bool)
  | updateTeamOp (caller : User) (team_id : Nat) (patch : TeamUpdatePatch)
  | createTeamOp (caller : User) (payload : TeamCreatePayload)
  deriving DecidableEq, Repr

/-- The state after executing one operation (ok or error alike). -/
def step (db : DB) : Op → DB
  | .applyOp u tid msg => (apply_to_team db tid msg u).state
  | .withdrawOp u aid => (withdraw_application db aid u).state
  | .approveOp u aid => (approve_application db aid u).state
  | .rejectOp u aid => (reject_application db aid u).state
  | .inviteOp u tid pid msg now =>
      (invite_player_to_team db tid pid msg u now).state
  | .respondOp u iid s now => (respond_to_invitation db iid s u now).state
  | .swipeAppOp u tid => (player_swipe_right_on_team db tid u).state
  | .swipeInvOp u pid now => (captain_swipe_right_on_player db pid u now).state
  | .markSquadFullOp u tid flag => (mark_squad_full db tid flag u).state
  | .updateTeamOp u tid patch => (update_team db tid patch u).state
  | .createTeamOp u payload => (create_team db payload u).state

/-- The state after executing a sequence of operations. -/
def runOps (db : DB) (ops : List Op) : DB :=
  ops.foldl step db

/-! ### Capacity predicates -/

/-- The spec's capacity invariant for one team:
`0 ≤ current_player_count ≤ max_players`. -/
def capacityOK (t : Team) : Prop :=
  0 ≤ t.current_player_count ∧ t.current_player_count ≤ t.max_players

instance (t : Team) : Decidable (capacityOK t) := by
  unfold capacityOK; infer_instance

/-- The spec's capacity invariant over the whole database. -/
def capacityInvariant (db : DB) : Prop :=
  ∀ t ∈ db.teams, capacityOK t

instance (db : DB) : Decidable (capacityInvariant db) := by
  unfold capacityInvariant; infer_instance

/-- The strengthened per-team invariant the code actually maintains:
capacity plus the flag discipline `count ≥ max → is_squad_full` the
approve guard relies on. -/
def teamOK (t : Team) : Prop :=
  0 ≤ t.current_player_count ∧ t.current_player_count ≤ t.max_players ∧
    (t.max_players ≤ t.current_player_count → t.is_squad_full = true)

instance (t : Team) : Decidable (teamOK t) := by
  unfold teamOK; infer_instance

/-- The strengthened invariant over the whole database. -/
def dbTeamsOK (db : DB) : Prop :=
  ∀ t ∈ db.teams, teamOK t

instance (db : DB) : Decidable (dbTeamsOK db) := by
  unfold dbTeamsOK; infer_instance

/-- Operations that do not tamper with the flag discipline: no manual
un-marking of the squad-full flag, no patch of `max_players`, and team
creation with a positive capacity (the spec's "positive integer"). -/
def safeOp : Op → Prop
  | .markSquadFullOp _ _ flag => flag = true
  | .updateTeamOp _ _ patch => patch.max_players = none
  | .createTeamOp _ payload => 0 < payload.max_players
  | _ => True

instance (op : Op) : Decidable (safeOp op) := by
  cases op <;> (unfold safeOp; infer_instance)

/-! ### Concrete fixture: two players, one captain -/

/-- A captain account. -/
def cap : User := { id := 1, roles := ["captain"], full_name := "Cap" }

/-- A player account. -/
def p1 : User := { id := 2, roles := ["player"], full_name := "P1" }

/-- A second player account. -/
def p2 : User := { id := 3, roles := ["player"], full_name := "P2" }

/-- Initial database: the three accounts, no teams or proposals. -/
def initDB : DB :=
  { users := [cap, p1, p2], teams := [], applications := []
    invitations := [], next_id := 10 }

/-- Trace breaking the capacity invariant: create a one-slot team, fill it
by approving P1, have the captain clear the squad-full flag, then approve
P2 as well. Team id 10, applications 11 and 12. -/
def breakTrace : List Op :=
  [ .createTeamOp cap { name := "T", max_players := 1 }
  , .applyOp p1 10 none
  , .approveOp cap 11
  , .markSquadFullOp cap 10 false
  , .applyOp p2 10 none
  , .approveOp cap 12 ]

/-- Trace with the manual un-marking removed: the second approval is then
refused by the squad-full guard and the roster stays within capacity. -/
def goodTrace : List Op :=
  [ .createTeamOp cap { name := "T", max_players := 1 }
  , .applyOp p1 10 none
  , .approveOp cap 11
  , .applyOp p2 10 none
  , .approveOp cap 12 ]

/-- Create a three-slot team, have P1 apply, approve, and approve the same
application a second time. Team id 10, application id 11. -/
def doubleApproveTrace : List Op :=
  [ .createTeamOp cap { name := "T", max_players := 3 }
  , .applyOp p1 10 none
  , .approveOp cap 11
  , .approveOp cap 11 ]

/-- Create a three-slot team and invite P1 at time 0; the invitation (id
11) expires at 7 days = 604800 seconds. -/
def inviteTrace : List Op :=
  [ .createTeamOp cap { name := "T", max_players := 3 }
  , .inviteOp cap 10 2 none 0 ]

/-- Create a one-slot team and fill it by approving P1's application: the
team ends marked squad-full with count = max_players. -/
def fullTeamTrace : List Op :=
  [ .createTeamOp cap { name := "T", max_players := 1 }
  , .applyOp p1 10 none
  , .approveOp cap 11 ]

/-- Did the call succeed? -/
def OpResult.isOk {α : Type} : OpResult α → Bool
  | .ok _ _ => true
  | .err _ _ => false

/-- A three-slot team with one pending application from P1, used as a
concrete instantiation site for the general theorems. -/
def teamW : Team :=
  { id := 10, name := "T", captain_id := 1, is_active := true
    max_players := 3, current_player_count := 0, is_squad_full := false }

/-- Pending application of P1 to `teamW`. -/
def appW : TeamApplication :=
  { id := 11, team_id := 10, player_id := 2
    status := ApplicationStatus.pending, message := none }

/-- Pending invitation of P1 to `teamW`, expiring at time 100. -/
def invW : TeamInvitation :=
  { id := 14, team_id := 10, player_id := 2, invited_by := 1
    status := InvitationStatus.pending, message := none, expires_at := 100 }

/-- Concrete database: three accounts, `teamW`, `appW`, `invW`. -/
def dbW : DB :=
  { users := [cap, p1, p2], teams := [teamW], applications := [appW]
    invitations := [invW], next_id := 20 }

/-- The application row a player swipe inserts when none exists for the
pair. -/
def newSwipeApp (db : DB) (tid : Nat) (caller : User) : TeamApplication :=
  { id := db.next_id, team_id := tid, player_id := caller.id
    status := ApplicationStatus.pending, message := none }

/-- The state after a player swipe that inserted a fresh application. -/
def dbAfterSwipe (db : DB) (tid : Nat) (caller : User) : DB :=
  { db with applications := db.applications ++ [newSwipeApp db tid caller]
            next_id := db.next_id + 1 }

/-- The invitation row the explicit invite endpoint inserts (7-day
expiry). -/
def newInviteRec (db : DB) (tid pid : Nat) (msg : Option String)
    (caller : User) (now : Int) : TeamInvitation :=
  { id := db.next_id, team_id := tid, player_id := pid
    invited_by := caller.id, status := InvitationStatus.pending
    message := msg, expires_at := now + 7 * 86400 }

/-- The state after a successful explicit invite. -/
def dbAfterInvite (db : DB) (tid pid : Nat) (msg : Option String)
    (caller : User) (now : Int) : DB :=
  { db with invitations := db.invitations ++
              [newInviteRec db tid pid msg caller now]
            next_id := db.next_id + 1 }

/-- A one-slot team already at capacity, marked squad-full. -/
def teamF : Team :=
  { id := 10, name := "T", captain_id := 1, is_active := true
    max_players := 1, current_player_count := 1, is_squad_full := true }

/-- Concrete database holding the full team `teamF`. -/
def dbF : DB :=
  { users := [cap, p1, p2], teams := [teamF], applications := []
    invitations := [], next_id := 20 }

/-- An already-decided (accepted) application of P1 to `teamW`. -/
def appD : TeamApplication :=
  { id := 11, team_id := 10, player_id := 2
    status := ApplicationStatus.accepted, message := none }

/-- An already-decided (declined) invitation of P1 to `teamW`. -/
def invD : TeamInvitation :=
  { id := 14, team_id := 10, player_id := 2, invited_by := 1
    status := InvitationStatus.declined, message := none, expires_at := 100 }

/-- Concrete database whose proposals are already decided. -/
def dbD : DB :=
  { users := [cap, p1, p2], teams := [teamW], applications := [appD]
    invitations := [invD], next_id := 20 }

/-! ### Helper lemmas -/

theorem putTeam_applications (db : DB) (t : Team) :
    (putTeam db t).applications = db.applications := rfl

theorem putTeam_invitations (db : DB) (t : Team) :
    (putTeam db t).invitations = db.invitations := rfl

theorem putApp_teams (db : DB) (a : TeamApplication) :
    (putApp db a).teams = db.teams := rfl

theorem putApp_invitations (db : DB) (a : TeamApplication) :
    (putApp db a).invitations = db.invitations := rfl

theorem putInv_teams (db : DB) (i : TeamInvitation) :
    (putInv db i).teams = db.teams := rfl

theorem putInv_applications (db : DB) (i : TeamInvitation) :
    (putInv db i).applications = db.applications := rfl

/-- A member of the team table after `putTeam` is the written row or an
original row. -/
theorem putTeam_mem {db : DB} {t t' : Team}
    (h : t' ∈ (putTeam db t).teams) : t' = t ∨ t' ∈ db.teams := by
  unfold putTeam at h
  simp only [List.mem_map] at h
  obtain ⟨u, hu, hut⟩ := h
  by_cases hid : (u.id == t.id) = true
  · left; rw [if_pos hid] at hut; exact hut.symm
  · right; rw [if_neg hid] at hut; exact hut ▸ hu

/-- apply_to_team never touches the team table. -/
theorem apply_to_team_teams (db : DB) (tid : Nat) (msg : Option String)
    (u : User) : (apply_to_team db tid msg u).state.teams = db.teams := by
  unfold apply_to_team
  cases findTeam db tid with
  | none => rfl
  | some t => dsimp only; split <;> rfl

/-- withdraw_application never touches the team table. -/
theorem withdraw_application_teams (db : DB) (aid : Nat) (u : User) :
    (withdraw_application db aid u).state.teams = db.teams := by
  unfold withdraw_application
  cases db.applications.find? (fun a => a.id == aid && a.player_id == u.id) with
  | none => rfl
  | some a => dsimp only; split <;> rfl

/-- reject_application never touches the team table. -/
theorem reject_application_teams (db : DB) (aid : Nat) (u : User) :
    (reject_application db aid u).state.teams = db.teams := by
  unfold reject_application
  cases db.applications.find? (fun a => a.id == aid) with
  | none => rfl
  | some a =>
    dsimp only
    cases findTeam db a.team_id with
    | none => rfl
    | some t => dsimp only; split <;> rfl

/-- respond_to_invitation never touches the team table. -/
theorem respond_to_invitation_teams (db : DB) (iid : Nat)
    (s : InvitationStatus) (u : User) (now : Int) :
    (respond_to_invitation db iid s u now).state.teams = db.teams := by
  unfold respond_to_invitation
  cases db.invitations.find? (fun i => i.id == iid && i.player_id == u.id) with
  | none => rfl
  | some i => dsimp only; split; · rfl
              · split <;> rfl

/-- invite_player_to_team never touches the team table. -/
theorem invite_player_to_team_teams (db : DB) (tid pid : Nat)
    (msg : Option String) (u : User) (now : Int) :
    (invite_player_to_team db tid pid msg u now).state.teams = db.teams := by
  unfold invite_player_to_team
  cases findTeam db tid with
  | none => rfl
  | some t =>
    dsimp only
    split; · rfl
    split; · rfl
    cases findUser db pid with
    | none => rfl
    | some p => dsimp only; split; · rfl
                split; · rfl
                rfl

/-- player_swipe_right_on_team never touches the team table. -/
theorem player_swipe_teams (db : DB) (tid : Nat) (u : User) :
    (player_swipe_right_on_team db tid u).state.teams = db.teams := by
  unfold player_swipe_right_on_team
  cases findTeam db tid with
  | none => rfl
  | some t =>
    dsimp only
    cases db.applications.find? (fun a => a.team_id == tid &&
      a.player_id == u.id) with
    | none => rfl
    | some a => rfl

/-- captain_swipe_right_on_player never touches the team table. -/
theorem captain_swipe_teams (db : DB) (pid : Nat) (u : User) (now : Int) :
    (captain_swipe_right_on_player db pid u now).state.teams = db.teams := by
  unfold captain_swipe_right_on_player
  cases db.teams.find? (fun t => t.captain_id == u.id) with
  | none => rfl
  | some t =>
    dsimp only
    cases findUser db pid with
    | none => rfl
    | some p =>
      dsimp only
      cases db.invitations.find? (fun i => i.team_id == t.id &&
        i.player_id == pid && i.status == InvitationStatus.pending) with
      | none => rfl
      | some i => rfl

/-- Approving preserves the strengthened team invariant: the guard refuses
a flag-full team, and the flag discipline forces `count < max` there, so
the increment stays within capacity and re-establishes the flag. -/
theorem approve_preserves_dbTeamsOK (db : DB) (aid : Nat) (u : User)
    (hdb : dbTeamsOK db) :
    dbTeamsOK (approve_application db aid u).state := by
  unfold approve_application
  cases hfa : db.applications.find? (fun a => a.id == aid) with
  | none => exact hdb
  | some app =>
    dsimp only
    cases hft : findTeam db app.team_id with
    | none => exact hdb
    | some team =>
      dsimp only
      split
      · exact hdb
      · split
        · exact hdb
        · rename_i hfull
          have hteam : teamOK team :=
            hdb team (List.mem_of_find?_eq_some hft)
          have hflag : team.is_squad_full = false := by
            simpa using hfull
          intro t' ht'
          simp only [OpResult.state, putApp_teams] at ht'
          rcases putTeam_mem ht' with h | h
          · subst h
            have hlt : team.current_player_count < team.max_players := by
              by_contra hge
              have := hteam.2.2 (le_of_not_lt hge)
              rw [hflag] at this
              exact Bool.false_ne_true this
            have h0 : 0 ≤ team.current_player_count := hteam.1
            refine ⟨?_, ?_, ?_⟩
            · show (0 : Int) ≤ team.current_player_count + 1
              omega
            · show team.current_player_count + 1 ≤ team.max_players
              omega
            · intro hmax
              show (if team.max_players ≤ team.current_player_count + 1
                then true else team.is_squad_full) = true
              exact if_pos hmax
          · exact hdb t' h

/-- Marking the squad full (flag = true) preserves the invariant. -/
theorem mark_squad_full_preserves_dbTeamsOK (db : DB) (tid : Nat) (u : User)
    (hdb : dbTeamsOK db) :
    dbTeamsOK (mark_squad_full db tid true u).state := by
  unfold mark_squad_full
  cases hft : findTeam db tid with
  | none => exact hdb
  | some team =>
    dsimp only
    split
    · exact hdb
    · intro t' ht'
      rcases putTeam_mem ht' with h | h
      · subst h
        have hteam : teamOK team := hdb team (List.mem_of_find?_eq_some hft)
        exact ⟨hteam.1, hteam.2.1, fun _ => rfl⟩
      · exact hdb t' h

/-- A team patch that leaves `max_players` unset preserves the invariant:
only profile fields change. -/
theorem update_team_preserves_dbTeamsOK (db : DB) (tid : Nat)
    (patch : TeamUpdatePatch) (u : User) (hmax : patch.max_players = none)
    (hdb : dbTeamsOK db) :
    dbTeamsOK (update_team db tid patch u).state := by
  unfold update_team
  cases hft : findTeam db tid with
  | none => exact hdb
  | some team =>
    dsimp only
    split
    · exact hdb
    · intro t' ht'
      rcases putTeam_mem ht' with h | h
      · subst h
        have hteam : teamOK team := hdb team (List.mem_of_find?_eq_some hft)
        rw [hmax]
        exact hteam
      · exact hdb t' h

/-- Creating a team with positive capacity preserves the invariant: the new
row starts with a zero counter. -/
theorem create_team_preserves_dbTeamsOK (db : DB)
    (payload : TeamCreatePayload) (u : User)
    (hpos : 0 < payload.max_players) (hdb : dbTeamsOK db) :
    dbTeamsOK (create_team db payload u).state := by
  unfold create_team
  split
  · exact hdb
  · intro t' ht'
    simp only [OpResult.state, List.mem_append, List.mem_singleton] at ht'
    rcases ht' with h | h
    · exact hdb t' h
    · subst h
      exact ⟨le_refl 0, le_of_lt hpos,
        fun hmax => absurd (show payload.max_players ≤ 0 from hmax)
          (by omega)⟩

/-- One safe public operation preserves the strengthened invariant. -/
theorem step_preserves_dbTeamsOK (db : DB) (op : Op) (hop : safeOp op)
    (hdb : dbTeamsOK db) : dbTeamsOK (step db op) := by
  cases op with
  | applyOp u tid msg =>
      unfold step dbTeamsOK; rw [apply_to_team_teams]; exact hdb
  | withdrawOp u aid =>
      unfold step dbTeamsOK; rw [withdraw_application_teams]; exact hdb
  | approveOp u aid => exact approve_preserves_dbTeamsOK db aid u hdb
  | rejectOp u aid =>
      unfold step dbTeamsOK; rw [reject_application_teams]; exact hdb
  | inviteOp u tid pid msg now =>
      unfold step dbTeamsOK; rw [invite_player_to_team_teams]; exact hdb
  | respondOp u iid s now =>
      unfold step dbTeamsOK; rw [respond_to_invitation_teams]; exact hdb
  | swipeAppOp u tid =>
      unfold step dbTeamsOK; rw [player_swipe_teams]; exact hdb
  | swipeInvOp u pid now =>
      unfold step dbTeamsOK; rw [captain_swipe_teams]; exact hdb
  | markSquadFullOp u tid flag =>
      have hflag : flag = true := hop
      subst hflag
      exact mark_squad_full_preserves_dbTeamsOK db tid u hdb
  | updateTeamOp u tid patch =>
      exact update_team_preserves_dbTeamsOK db tid patch u hop hdb
  | createTeamOp u payload =>
      exact create_team_preserves_dbTeamsOK db payload u hop hdb

/-- A sequence of safe operations preserves the strengthened invariant. -/
theorem runOps_preserves_dbTeamsOK (ops : List Op) (db : DB)
    (hdb : dbTeamsOK db) (hops : ∀ op ∈ ops, safeOp op) :
    dbTeamsOK (runOps db ops) := by
  induction ops generalizing db with
  | nil => exact hdb
  | cons op rest ih =>
      exact ih (step db op)
        (step_preserves_dbTeamsOK db op (hops op (List.mem_cons_self op rest)) hdb)
        (fun o ho => hops o (List.mem_cons_of_mem op ho))

/-! ### Claim C1 -/

/-- C1 counterexample: the capacity invariant is NOT maintained by every
sequence of public operations. After creating a one-slot team, filling it,
manually clearing the squad-full flag, and approving a second application,
the roster counter (2) exceeds `max_players` (1). -/
theorem C1_counterexample :
    ¬ capacityInvariant (runOps initDB breakTrace) := by decide

/-- C1 amended: `0 ≤ current_player_count ≤ max_players` holds after every
sequence of public operations that avoids clearing the squad-full flag,
patching `max_players`, and creating teams with non-positive capacity,
starting from a state whose teams are within capacity and satisfy the
flag discipline (`count ≥ max → is_squad_full`). -/
theorem C1_amended (db : DB) (ops : List Op) (hdb : dbTeamsOK db)
    (hops : ∀ op ∈ ops, safeOp op) : capacityInvariant (runOps db ops) :=
  fun t ht =>
    let h := runOps_preserves_dbTeamsOK ops db hdb hops t ht
    ⟨h.1, h.2.1⟩

/-- C1 witness: the amended theorem applied to the concrete safe trace
(create a one-slot team, approve one of two applications; the second
approval is refused by the guard). -/
theorem C1_amended_witness : capacityInvariant (runOps initDB goodTrace) :=
  C1_amended initDB goodTrace (by decide) (by decide)

/-! ### Claim C2 -/

/-- C2 counterexample: an approve call by the captain on a pending
application of a team that is already full (`current_player_count ≥
max_players`, flag manually cleared) does NOT fail: it succeeds and pushes
the counter to 2 with `max_players = 1`. -/
theorem C2_counterexample :
    (∃ t ∈ (runOps initDB (breakTrace.take 5)).teams,
      t.max_players ≤ t.current_player_count) ∧
    (∃ a ∈ (runOps initDB (breakTrace.take 5)).applications,
      a.id = 12 ∧ a.status = ApplicationStatus.pending) ∧
    (approve_application (runOps initDB (breakTrace.take 5)) 12 cap).isOk
      = true ∧
    (∃ t ∈ (approve_application (runOps initDB (breakTrace.take 5)) 12
        cap).state.teams,
      t.current_player_count = 2 ∧ t.max_players = 1) := by decide

/-- C2 amended: the approve guard is the stored `is_squad_full` flag, not
the comparison `current_player_count ≥ max_players`. For a captain's
approve call on a pending application: if the flag is set the call fails
with the 400 "Team squad is full" error and the state is unchanged (the
application remains pending); if the flag is clear the call succeeds, the
counter is incremented by one, and the flag is set in the same update
whenever the new count reaches `max_players`. -/
theorem C2_amended (db : DB) (aid : Nat) (caller : User)
    (app : TeamApplication) (team : Team)
    (hfa : db.applications.find? (fun a => a.id == aid) = some app)
    (hft : findTeam db app.team_id = some team)
    (hcap : team.captain_id = caller.id)
    (hpend : app.status = ApplicationStatus.pending) :
    (team.is_squad_full = true →
      approve_application db aid caller =
        OpResult.err db ⟨400, "Team squad is full"⟩) ∧
    (team.is_squad_full = false →
      approve_application db aid caller =
        OpResult.ok
          (putApp
            (putTeam db { team with
              current_player_count := team.current_player_count + 1
              is_squad_full :=
                if team.max_players ≤ team.current_player_count + 1
                then true else team.is_squad_full })
            { app with status := ApplicationStatus.accepted })
          { app with status := ApplicationStatus.accepted }) := by
  constructor <;> intro hfull <;>
    simp [approve_application, hfa, hft, hcap, hfull]

/-- C2 witness: the amended theorem applied at `dbW` (flag clear): the
approval succeeds and increments the counter. -/
theorem C2_amended_witness :
    (teamW.is_squad_full = true →
      approve_application dbW 11 cap =
        OpResult.err dbW ⟨400, "Team squad is full"⟩) ∧
    (teamW.is_squad_full = false →
      approve_application dbW 11 cap =
        OpResult.ok
          (putApp
            (putTeam dbW { teamW with
              current_player_count := teamW.current_player_count + 1
              is_squad_full :=
                if teamW.max_players ≤ teamW.current_player_count + 1
                then true else teamW.is_squad_full })
            { appW with status := ApplicationStatus.accepted })
          { appW with status := ApplicationStatus.accepted }) :=
  C2_amended dbW 11 cap appW teamW (by decide) (by decide) (by decide)
    (by decide)

/-! ### Claim C3 -/

/-- C3 counterexample: approving an application that is already accepted
does NOT fail: the second approve of application 11 succeeds and the
roster counter is incremented a second time (to 2). -/
theorem C3_counterexample :
    (∃ a ∈ (runOps initDB (doubleApproveTrace.take 3)).applications,
      a.id = 11 ∧ a.status = ApplicationStatus.accepted) ∧
    (approve_application (runOps initDB (doubleApproveTrace.take 3)) 11
      cap).isOk = true ∧
    (∃ t ∈ (runOps initDB doubleApproveTrace).teams,
      t.current_player_count = 2) := by decide

/-- C3 amended: terminal-state protection holds for the player-side
operations — withdraw and respond refuse a non-pending proposal with a 400
error and leave the state unchanged — but approve and reject perform no
status check at all: on an already-decided application they succeed,
overwrite the status (approve additionally increments the roster counter
again). -/
theorem C3_amended :
    (∀ (db : DB) (aid : Nat) (caller : User) (app : TeamApplication)
        (team : Team),
      db.applications.find? (fun a => a.id == aid) = some app →
      findTeam db app.team_id = some team →
      team.captain_id = caller.id →
      app.status ≠ ApplicationStatus.pending →
      team.is_squad_full = false →
      approve_application db aid caller =
        OpResult.ok
          (putApp
            (putTeam db { team with
              current_player_count := team.current_player_count + 1
              is_squad_full :=
                if team.max_players ≤ team.current_player_count + 1
                then true else team.is_squad_full })
            { app with status := ApplicationStatus.accepted })
          { app with status := ApplicationStatus.accepted }) ∧
    (∀ (db : DB) (aid : Nat) (caller : User) (app : TeamApplication)
        (team : Team),
      db.applications.find? (fun a => a.id == aid) = some app →
      findTeam db app.team_id = some team →
      team.captain_id = caller.id →
      app.status ≠ ApplicationStatus.pending →
      reject_application db aid caller =
        OpResult.ok (putApp db { app with status := ApplicationStatus.rejected })
          { app with status := ApplicationStatus.rejected }) ∧
    (∀ (db : DB) (aid : Nat) (caller : User) (app : TeamApplication),
      db.applications.find?
        (fun a => a.id == aid && a.player_id == caller.id) = some app →
      app.status ≠ ApplicationStatus.pending →
      withdraw_application db aid caller =
        OpResult.err db ⟨400, "Can only withdraw pending applications"⟩) ∧
    (∀ (db : DB) (iid : Nat) (s : InvitationStatus) (caller : User)
        (now : Int) (inv : TeamInvitation),
      db.invitations.find?
        (fun i => i.id == iid && i.player_id == caller.id) = some inv →
      inv.status ≠ InvitationStatus.pending →
      respond_to_invitation db iid s caller now =
        OpResult.err db ⟨400, "Invitation has already been responded to"⟩) := by
  refine ⟨?_, ?_, ?_, ?_⟩
  · intro db aid caller app team hfa hft hcap hstat hfull
    simp [approve_application, hfa, hft, hcap, hfull]
  · intro db aid caller app team hfa hft hcap hstat
    simp [reject_application, hfa, hft, hcap]
  · intro db aid caller app hfa hstat
    simp [withdraw_application, hfa, hstat]
  · intro db iid s caller now inv hfi hstat
    simp [respond_to_invitation, hfi, hstat]

/-- C3 witness: the four conjuncts applied at the concrete decided
proposals of `dbD`. -/
theorem C3_amended_witness :
    approve_application dbD 11 cap =
      OpResult.ok
        (putApp
          (putTeam dbD { teamW with
            current_player_count := teamW.current_player_count + 1
            is_squad_full :=
              if teamW.max_players ≤ teamW.current_player_count + 1
              then true else teamW.is_squad_full })
          { appD with status := ApplicationStatus.accepted })
        { appD with status := ApplicationStatus.accepted } ∧
    reject_application dbD 11 cap =
      OpResult.ok (putApp dbD { appD with status := ApplicationStatus.rejected })
        { appD with status := ApplicationStatus.rejected } ∧
    withdraw_application dbD 11 p1 =
      OpResult.err dbD ⟨400, "Can only withdraw pending applications"⟩ ∧
    respond_to_invitation dbD 14 InvitationStatus.accepted p1 50 =
      OpResult.err dbD ⟨400, "Invitation has already been responded to"⟩ :=
  ⟨C3_amended.1 dbD 11 cap appD teamW (by decide) (by decide) (by decide)
      (by decide) (by decide),
   C3_amended.2.1 dbD 11 cap appD teamW (by decide) (by decide) (by decide)
      (by decide),
   C3_amended.2.2.1 dbD 11 p1 appD (by decide) (by decide),
   C3_amended.2.2.2 dbD 14 InvitationStatus.accepted p1 50 invD (by decide)
      (by decide)⟩

/-! ### Claim C4 -/

/-- A pending, owned, unexpired (`now ≤ expires_at`) invitation: the
response is honored and the supplied status stored verbatim. -/
theorem respond_honored (db : DB) (iid : Nat) (s : InvitationStatus)
    (caller : User) (now : Int) (inv : TeamInvitation)
    (hfi : db.invitations.find?
      (fun i => i.id == iid && i.player_id == caller.id) = some inv)
    (hpend : inv.status = InvitationStatus.pending)
    (hfresh : now ≤ inv.expires_at) :
    respond_to_invitation db iid s caller now =
      OpResult.ok (putInv db { inv with status := s })
        { inv with status := s } := by
  simp [respond_to_invitation, hfi, hpend, not_lt.mpr hfresh]

/-- A pending, owned invitation with `expires_at < now`: the row is
committed to `expired` and the 400 expiry error raised. -/
theorem respond_expiry_write (db : DB) (iid : Nat) (s : InvitationStatus)
    (caller : User) (now : Int) (inv : TeamInvitation)
    (hfi : db.invitations.find?
      (fun i => i.id == iid && i.player_id == caller.id) = some inv)
    (hpend : inv.status = InvitationStatus.pending)
    (hlate : inv.expires_at < now) :
    respond_to_invitation db iid s caller now =
      OpResult.err (putInv db { inv with status := InvitationStatus.expired })
        ⟨400, "Invitation has expired"⟩ := by
  simp [respond_to_invitation, hfi, hpend, hlate]

/-- C4 counterexample: the expiry comparison is strict (`expires_at <
now`), so a response arriving at exactly `now = expires_at` — which the
claim's `now ≥ expires_at` covers — is honored: invitation 11 expires at
604800 and responding "accept" at 604800 ends in `accepted`. -/
theorem C4_counterexample :
    (∃ i ∈ (runOps initDB inviteTrace).invitations,
      i.id = 11 ∧ i.status = InvitationStatus.pending ∧
        i.expires_at = 604800) ∧
    (∃ i ∈ (respond_to_invitation (runOps initDB inviteTrace) 11
        InvitationStatus.accepted p1 604800).state.invitations,
      i.id = 11 ∧ i.status = InvitationStatus.accepted) := by decide

/-- C4 amended: expiry takes priority only for strictly late responses.
For a pending invitation owned by the caller: if `now > expires_at` at the
moment of response the invitation is committed to `expired` and
`InvitationExpired` (400) is reported — the state write persists as a side
effect of the failed response and the invitation does not end up accepted;
if `now ≤ expires_at` (including equality) the response is honored. -/
theorem C4_amended (db : DB) (iid : Nat) (s : InvitationStatus)
    (caller : User) (now : Int) (inv : TeamInvitation)
    (hfi : db.invitations.find?
      (fun i => i.id == iid && i.player_id == caller.id) = some inv)
    (hpend : inv.status = InvitationStatus.pending) :
    (inv.expires_at < now →
      respond_to_invitation db iid s caller now =
        OpResult.err
          (putInv db { inv with status := InvitationStatus.expired })
          ⟨400, "Invitation has expired"⟩) ∧
    (now ≤ inv.expires_at →
      respond_to_invitation db iid s caller now =
        OpResult.ok (putInv db { inv with status := s })
          { inv with status := s }) :=
  ⟨fun h => respond_expiry_write db iid s caller now inv hfi hpend h,
   fun h => respond_honored db iid s caller now inv hfi hpend h⟩

/-- C4 witness: invitation `invW` (expires at 100): a response at time 200
is turned into the expired-write plus error; a response at exactly 100 is
honored. -/
theorem C4_amended_witness :
    respond_to_invitation dbW 14 InvitationStatus.accepted p1 200 =
      OpResult.err
        (putInv dbW { invW with status := InvitationStatus.expired })
        ⟨400, "Invitation has expired"⟩ ∧
    respond_to_invitation dbW 14 InvitationStatus.accepted p1 100 =
      OpResult.ok (putInv dbW { invW with status := InvitationStatus.accepted })
        { invW with status := InvitationStatus.accepted } :=
  ⟨(C4_amended dbW 14 InvitationStatus.accepted p1 200 invW (by decide)
      (by decide)).1 (by decide),
   (C4_amended dbW 14 InvitationStatus.accepted p1 100 invW (by decide)
      (by decide)).2 (by decide)⟩

/-! ### Claim C5 -/

/-- C5 confirmed: a player swipe reports `matched = true` exactly when a
pending invitation exists for the (team, player) pair, and leaves the
invitation table (and teams) untouched; a captain swipe reports
`matched = true` exactly when a pending application exists for (captain's
team, player), and leaves the application table (and teams) untouched. -/
theorem C5_match_verdict (db : DB) (tid pid : Nat) (playerU capU : User)
    (team teamC : Team) (target : User) (now : Int)
    (hft : findTeam db tid = some team)
    (hcap : db.teams.find? (fun t => t.captain_id == capU.id) = some teamC)
    (hpl : findUser db pid = some target) :
    (∃ db1, player_swipe_right_on_team db tid playerU =
        OpResult.ok db1 (hasPendingInv db tid playerU.id) ∧
      db1.invitations = db.invitations ∧ db1.teams = db.teams) ∧
    (∃ db2, captain_swipe_right_on_player db pid capU now =
        OpResult.ok db2 (hasPendingApp db teamC.id pid) ∧
      db2.applications = db.applications ∧ db2.teams = db.teams) := by
  constructor
  · unfold player_swipe_right_on_team
    rw [hft]
    dsimp only
    cases hex : db.applications.find?
        (fun a => a.team_id == tid && a.player_id == playerU.id) with
    | some a => exact ⟨db, rfl, rfl, rfl⟩
    | none => exact ⟨_, rfl, rfl, rfl⟩
  · unfold captain_swipe_right_on_player
    rw [hcap]
    dsimp only
    rw [hpl]
    dsimp only
    cases hex : db.invitations.find? (fun i => i.team_id == teamC.id &&
        i.player_id == pid && i.status == InvitationStatus.pending) with
    | some i => exact ⟨db, rfl, rfl, rfl⟩
    | none => exact ⟨_, rfl, rfl, rfl⟩

/-- C5 witness: both verdicts evaluated in `dbW`, where the pending
invitation and application for (team 10, player 2) exist. -/
theorem C5_match_verdict_witness :
    (∃ db1, player_swipe_right_on_team dbW 10 p1 =
        OpResult.ok db1 (hasPendingInv dbW 10 p1.id) ∧
      db1.invitations = dbW.invitations ∧ db1.teams = dbW.teams) ∧
    (∃ db2, captain_swipe_right_on_player dbW 2 cap 0 =
        OpResult.ok db2 (hasPendingApp dbW teamW.id 2) ∧
      db2.applications = dbW.applications ∧ db2.teams = dbW.teams) :=
  C5_match_verdict dbW 10 2 p1 cap teamW teamW p1 0 (by decide) (by decide)
    (by decide)

/-! ### Claim C6 -/

/-- C6 confirmed: swiping twice in a row on the same team with no
intervening change stores no duplicate — the second call returns the exact
same state and the same match verdict as the first — and starting with no
stored application for the pair, the two calls leave exactly one. -/
theorem player_swipe_existing (db : DB) (tid : Nat) (caller : User)
    (team : Team) (a : TeamApplication)
    (hft : findTeam db tid = some team)
    (hex : db.applications.find?
      (fun x => x.team_id == tid && x.player_id == caller.id) = some a) :
    player_swipe_right_on_team db tid caller =
      OpResult.ok db (hasPendingInv db tid caller.id) := by
  unfold player_swipe_right_on_team
  rw [hft]
  dsimp only
  rw [hex]

theorem player_swipe_fresh (db : DB) (tid : Nat) (caller : User)
    (team : Team) (hft : findTeam db tid = some team)
    (hex : db.applications.find?
      (fun x => x.team_id == tid && x.player_id == caller.id) = none) :
    player_swipe_right_on_team db tid caller =
      OpResult.ok (dbAfterSwipe db tid caller)
        (hasPendingInv db tid caller.id) := by
  unfold player_swipe_right_on_team
  rw [hft]
  dsimp only
  rw [hex]
  rfl

theorem C6_swipe_idempotent (db : DB) (tid : Nat) (caller : User)
    (team : Team) (hft : findTeam db tid = some team) :
    ∃ db1 m1, player_swipe_right_on_team db tid caller = OpResult.ok db1 m1 ∧
      player_swipe_right_on_team db1 tid caller = OpResult.ok db1 m1 ∧
      (appsFor db tid caller.id = [] →
        (appsFor db1 tid caller.id).length = 1) := by
  cases hex : db.applications.find?
      (fun x => x.team_id == tid && x.player_id == caller.id) with
  | some a =>
    refine ⟨db, hasPendingInv db tid caller.id,
      player_swipe_existing db tid caller team a hft hex,
      player_swipe_existing db tid caller team a hft hex, ?_⟩
    intro hnil
    exfalso
    have hma : a ∈ db.applications := List.mem_of_find?_eq_some hex
    have hpa := List.find?_some hex
    have ha : a ∈ appsFor db tid caller.id :=
      List.mem_filter.mpr ⟨hma, hpa⟩
    rw [hnil] at ha
    exact List.not_mem_nil a ha
  | none =>
    have hft1 : findTeam (dbAfterSwipe db tid caller) tid = some team := hft
    have hex1 : (dbAfterSwipe db tid caller).applications.find?
        (fun x => x.team_id == tid && x.player_id == caller.id) =
          some (newSwipeApp db tid caller) := by
      show (db.applications ++ [newSwipeApp db tid caller]).find? _ = _
      rw [List.find?_append, hex]
      simp [newSwipeApp, List.find?_cons]
    refine ⟨dbAfterSwipe db tid caller, hasPendingInv db tid caller.id,
      player_swipe_fresh db tid caller team hft hex, ?_, ?_⟩
    · exact player_swipe_existing (dbAfterSwipe db tid caller) tid caller
        team (newSwipeApp db tid caller) hft1 hex1
    · intro hnil
      show ((db.applications ++ [newSwipeApp db tid caller]).filter
        (fun x => x.team_id == tid && x.player_id == caller.id)).length = 1
      rw [List.filter_append]
      have hempty : db.applications.filter
          (fun x => x.team_id == tid && x.player_id == caller.id) = [] := hnil
      rw [hempty]
      simp [newSwipeApp]

/-- C6 witness: P2 has no stored application in `dbW`; two successive
swipes leave exactly one and agree on the verdict. -/
theorem C6_swipe_idempotent_witness :
    ∃ db1 m1,
      player_swipe_right_on_team dbW 10 p2 = OpResult.ok db1 m1 ∧
      player_swipe_right_on_team db1 10 p2 = OpResult.ok db1 m1 ∧
      (appsFor dbW 10 p2.id = [] → (appsFor db1 10 p2.id).length = 1) :=
  C6_swipe_idempotent dbW 10 p2 teamW (by decide)

/-! ### Claim C7 -/

/-- C7 counterexample: the captain swipe creates an invitation even though
the team is full (marked squad-full with count = max): the swipe on player
P2 succeeds and the invitation table grows by one, instead of failing with
TeamFull. -/
theorem C7_counterexample :
    (∃ t ∈ (runOps initDB fullTeamTrace).teams,
      t.is_squad_full = true ∧ t.max_players ≤ t.current_player_count) ∧
    (captain_swipe_right_on_player (runOps initDB fullTeamTrace) 3 cap
      0).isOk = true ∧
    (captain_swipe_right_on_player (runOps initDB fullTeamTrace) 3 cap
        0).state.invitations.length =
      (runOps initDB fullTeamTrace).invitations.length + 1 := by decide

/-- C7 amended: only the explicit invite endpoint enforces the creation
guards — it fails with the 400 TeamFull error when the squad-full flag is
set and with the 400 duplicate error when a pending invitation for the
pair exists, creating a 7-day pending invitation otherwise — while the
captain swipe endpoint creates a 30-day pending invitation regardless of
squad fullness, and on an existing pending invitation it skips creation
silently and still succeeds rather than failing with DuplicateProposal. -/
theorem C7_amended :
    (∀ (db : DB) (tid pid : Nat) (msg : Option String) (caller : User)
        (now : Int) (team : Team),
      findTeam db tid = some team →
      team.captain_id = caller.id →
      team.is_squad_full = true →
      invite_player_to_team db tid pid msg caller now =
        OpResult.err db ⟨400, "Team squad is full"⟩) ∧
    (∀ (db : DB) (tid pid : Nat) (msg : Option String) (caller : User)
        (now : Int) (team : Team) (target : User),
      findTeam db tid = some team →
      team.captain_id = caller.id →
      team.is_squad_full = false →
      findUser db pid = some target →
      target.roles.contains "player" = true →
      hasPendingInv db tid pid = true →
      invite_player_to_team db tid pid msg caller now =
        OpResult.err db ⟨400, "Player already has a pending invitation"⟩) ∧
    (∀ (db : DB) (tid pid : Nat) (msg : Option String) (caller : User)
        (now : Int) (team : Team) (target : User),
      findTeam db tid = some team →
      team.captain_id = caller.id →
      team.is_squad_full = false →
      findUser db pid = some target →
      target.roles.contains "player" = true →
      hasPendingInv db tid pid = false →
      invite_player_to_team db tid pid msg caller now =
        OpResult.ok (dbAfterInvite db tid pid msg caller now)
          (newInviteRec db tid pid msg caller now)) ∧
    (∀ (db : DB) (pid : Nat) (capU : User) (now : Int) (teamC : Team)
        (target : User),
      db.teams.find? (fun t => t.captain_id == capU.id) = some teamC →
      findUser db pid = some target →
      (captain_swipe_right_on_player db pid capU now).isOk = true) ∧
    (∀ (db : DB) (pid : Nat) (capU : User) (now : Int) (teamC : Team)
        (target : User) (j : TeamInvitation),
      db.teams.find? (fun t => t.captain_id == capU.id) = some teamC →
      findUser db pid = some target →
      db.invitations.find? (fun i => i.team_id == teamC.id &&
        i.player_id == pid && i.status == InvitationStatus.pending) =
          some j →
      captain_swipe_right_on_player db pid capU now =
        OpResult.ok db (hasPendingApp db teamC.id pid)) := by
  refine ⟨?_, ?_, ?_, ?_, ?_⟩
  · intro db tid pid msg caller now team hft hcap hfull
    simp [invite_player_to_team, hft, hcap, hfull]
  · intro db tid pid msg caller now team target hft hcap hfull hpl hrole hdup
    have hrole' : "player" ∈ target.roles := by simpa using hrole
    simp [invite_player_to_team, hft, hcap, hfull, hpl, hrole', hdup]
  · intro db tid pid msg caller now team target hft hcap hfull hpl hrole hdup
    have hrole' : "player" ∈ target.roles := by simpa using hrole
    simp [invite_player_to_team, hft, hcap, hfull, hpl, hrole', hdup,
      dbAfterInvite, newInviteRec]
  · intro db pid capU now teamC target hct hpl
    unfold captain_swipe_right_on_player
    rw [hct]
    dsimp only
    rw [hpl]
    dsimp only
    cases hex : db.invitations.find? (fun i => i.team_id == teamC.id &&
      i.player_id == pid && i.status == InvitationStatus.pending) <;> rfl
  · intro db pid capU now teamC target j hct hpl hdup
    unfold captain_swipe_right_on_player
    rw [hct]
    dsimp only
    rw [hpl]
    dsimp only
    rw [hdup]

/-- C7 witness: the five conjuncts at concrete states: invite refused on
the full team `dbF` and on the duplicate in `dbW`, invite succeeding for
P2 in `dbW`, and the captain swipe succeeding in `dbW` where the pending
invitation for P1 already exists. -/
theorem C7_amended_witness :
    invite_player_to_team dbF 10 3 none cap 0 =
      OpResult.err dbF ⟨400, "Team squad is full"⟩ ∧
    invite_player_to_team dbW 10 2 none cap 0 =
      OpResult.err dbW ⟨400, "Player already has a pending invitation"⟩ ∧
    invite_player_to_team dbW 10 3 none cap 0 =
      OpResult.ok (dbAfterInvite dbW 10 3 none cap 0)
        (newInviteRec dbW 10 3 none cap 0) ∧
    (captain_swipe_right_on_player dbW 2 cap 0).isOk = true ∧
    captain_swipe_right_on_player dbW 2 cap 0 =
      OpResult.ok dbW (hasPendingApp dbW teamW.id 2) :=
  ⟨C7_amended.1 dbF 10 3 none cap 0 teamF (by decide) (by decide)
      (by decide),
   C7_amended.2.1 dbW 10 2 none cap 0 teamW p1 (by decide) (by decide)
      (by decide) (by decide) (by decide) (by decide),
   C7_amended.2.2.1 dbW 10 3 none cap 0 teamW p2 (by decide) (by decide)
      (by decide) (by decide) (by decide) (by decide),
   C7_amended.2.2.2.1 dbW 2 cap 0 teamW p1 (by decide) (by decide),
   C7_amended.2.2.2.2 dbW 2 cap 0 teamW p1 invW (by decide) (by decide)
      (by decide)⟩

/-! ### Claim C8 -/

/-- Replacing one team row by a row with the same id and the same counter
preserves every team's (id, counter) pair, assuming the table's ids are
unique (they are a primary key). -/
theorem putTeam_count_frame (db : DB) (team x : Team)
    (hnd : (db.teams.map Team.id).Nodup)
    (hmem : team ∈ db.teams)
    (hid : x.id = team.id)
    (hcount : x.current_player_count = team.current_player_count) :
    ∀ t ∈ db.teams, ∃ t' ∈ (putTeam db x).teams,
      t'.id = t.id ∧ t'.current_player_count = t.current_player_count := by
  intro t ht
  refine ⟨if t.id == x.id then x else t,
    List.mem_map_of_mem (fun u => if u.id == x.id then x else u) ht, ?_, ?_⟩
  · by_cases h : (t.id == x.id) = true
    · rw [if_pos h]
      exact (eq_of_beq h).symm
    · rw [if_neg h]
  · by_cases h : (t.id == x.id) = true
    · rw [if_pos h]
      have hteq : t = team :=
        List.inj_on_of_nodup_map hnd ht hmem
          ((eq_of_beq h).trans hid)
      rw [hcount, hteq]
    · rw [if_neg h]

/-- C8 confirmed: respond, reject and withdraw leave the team table —
hence every team's `current_player_count`, `max_players` and
`is_squad_full` — completely unchanged, and no public operation other
than approve changes any existing team's `current_player_count` (assuming
the team table's ids are unique). -/
theorem C8_roster_frame :
    (∀ (db : DB) (iid : Nat) (s : InvitationStatus) (u : User) (now : Int),
      (respond_to_invitation db iid s u now).state.teams = db.teams) ∧
    (∀ (db : DB) (aid : Nat) (u : User),
      (reject_application db aid u).state.teams = db.teams) ∧
    (∀ (db : DB) (aid : Nat) (u : User),
      (withdraw_application db aid u).state.teams = db.teams) ∧
    (∀ (db : DB) (op : Op), (db.teams.map Team.id).Nodup →
      (∀ (u : User) (aid : Nat), op ≠ Op.approveOp u aid) →
      ∀ t ∈ db.teams, ∃ t' ∈ (step db op).teams,
        t'.id = t.id ∧
          t'.current_player_count = t.current_player_count) := by
  refine ⟨respond_to_invitation_teams, reject_application_teams,
    withdraw_application_teams, ?_⟩
  intro db op hnd hop
  cases op with
  | applyOp u tid msg =>
    intro t ht
    exact ⟨t, by rw [step, apply_to_team_teams]; exact ht, rfl, rfl⟩
  | withdrawOp u aid =>
    intro t ht
    exact ⟨t, by rw [step, withdraw_application_teams]; exact ht, rfl, rfl⟩
  | approveOp u aid => exact absurd rfl (hop u aid)
  | rejectOp u aid =>
    intro t ht
    exact ⟨t, by rw [step, reject_application_teams]; exact ht, rfl, rfl⟩
  | inviteOp u tid pid msg now =>
    intro t ht
    exact ⟨t, by rw [step, invite_player_to_team_teams]; exact ht, rfl, rfl⟩
  | respondOp u iid s now =>
    intro t ht
    exact ⟨t, by rw [step, respond_to_invitation_teams]; exact ht, rfl, rfl⟩
  | swipeAppOp u tid =>
    intro t ht
    exact ⟨t, by rw [step, player_swipe_teams]; exact ht, rfl, rfl⟩
  | swipeInvOp u pid now =>
    intro t ht
    exact ⟨t, by rw [step, captain_swipe_teams]; exact ht, rfl, rfl⟩
  | markSquadFullOp u tid flag =>
    rw [step]
    unfold mark_squad_full
    cases hft : findTeam db tid with
    | none => exact fun t ht => ⟨t, ht, rfl, rfl⟩
    | some team =>
      dsimp only
      split
      · exact fun t ht => ⟨t, ht, rfl, rfl⟩
      · exact putTeam_count_frame db team { team with is_squad_full := flag }
          hnd (List.mem_of_find?_eq_some hft) rfl rfl
  | updateTeamOp u tid patch =>
    rw [step]
    unfold update_team
    cases hft : findTeam db tid with
    | none => exact fun t ht => ⟨t, ht, rfl, rfl⟩
    | some team =>
      dsimp only
      split
      · exact fun t ht => ⟨t, ht, rfl, rfl⟩
      · exact putTeam_count_frame db team _ hnd
          (List.mem_of_find?_eq_some hft) rfl rfl
  | createTeamOp u payload =>
    rw [step]
    unfold create_team
    split
    · exact fun t ht => ⟨t, ht, rfl, rfl⟩
    · exact fun t ht => ⟨t, List.mem_append_left _ ht, rfl, rfl⟩

/-- C8 witness: the frame part applied to the concrete mark-squad-full
operation on `dbW`: team 10 keeps its counter. -/
theorem C8_roster_frame_witness :
    ∃ t' ∈ (step dbW (Op.markSquadFullOp cap 10 false)).teams,
      t'.id = teamW.id ∧
        t'.current_player_count = teamW.current_player_count :=
  C8_roster_frame.2.2.2 dbW (Op.markSquadFullOp cap 10 false) (by decide)
    (fun u aid h => Op.noConfusion h) teamW (by decide)

/-! ### Claim C9 -/

/-- C9 counterexample: application 11 and invitation 14 exist but belong
to P1; when P2 calls withdraw and respond on them the code answers 404
NotFound — the same code as for an absent proposal — not 403 Forbidden. -/
theorem C9_counterexample :
    (∃ a ∈ dbW.applications, a.id = 11 ∧ a.player_id ≠ p2.id) ∧
    withdraw_application dbW 11 p2 =
      OpResult.err dbW ⟨404, "Application not found"⟩ ∧
    (∃ i ∈ dbW.invitations, i.id = 14 ∧ i.player_id ≠ p2.id) ∧
    respond_to_invitation dbW 14 InvitationStatus.accepted p2 50 =
      OpResult.err dbW ⟨404, "Invitation not found"⟩ := by decide

/-- C9 amended: a caller who is not the owner of an existing proposal is
rejected, but with the 404 NotFound error — indistinguishable from an
absent proposal — not a distinct Forbidden code: ownership is enforced by
scoping the row lookup to the caller, so a foreign proposal is simply not
found. -/
theorem C9_amended :
    (∀ (db : DB) (aid : Nat) (caller : User),
      (∃ a ∈ db.applications, a.id = aid) →
      (∀ a ∈ db.applications, a.id = aid → a.player_id ≠ caller.id) →
      withdraw_application db aid caller =
        OpResult.err db ⟨404, "Application not found"⟩) ∧
    (∀ (db : DB) (iid : Nat) (s : InvitationStatus) (caller : User)
        (now : Int),
      (∃ i ∈ db.invitations, i.id = iid) →
      (∀ i ∈ db.invitations, i.id = iid → i.player_id ≠ caller.id) →
      respond_to_invitation db iid s caller now =
        OpResult.err db ⟨404, "Invitation not found"⟩) := by
  constructor
  · intro db aid caller _hex hown
    have hnone : db.applications.find?
        (fun a => a.id == aid && a.player_id == caller.id) = none := by
      rw [List.find?_eq_none]
      intro a ha hpa
      rw [Bool.and_eq_true, beq_iff_eq, beq_iff_eq] at hpa
      exact hown a ha hpa.1 hpa.2
    simp [withdraw_application, hnone]
  · intro db iid s caller now _hex hown
    have hnone : db.invitations.find?
        (fun i => i.id == iid && i.player_id == caller.id) = none := by
      rw [List.find?_eq_none]
      intro i hi hpi
      rw [Bool.and_eq_true, beq_iff_eq, beq_iff_eq] at hpi
      exact hown i hi hpi.1 hpi.2
    simp [respond_to_invitation, hnone]

/-- C9 witness: the amended theorem applied to P2 calling withdraw and
respond on P1's proposals in `dbW`. -/
theorem C9_amended_witness :
    withdraw_application dbW 11 p2 =
      OpResult.err dbW ⟨404, "Application not found"⟩ ∧
    respond_to_invitation dbW 14 InvitationStatus.accepted p2 50 =
      OpResult.err dbW ⟨404, "Invitation not found"⟩ :=
  ⟨C9_amended.1 dbW 11 p2 (by decide) (by decide),
   C9_amended.2 dbW 14 InvitationStatus.accepted p2 50 (by decide)
      (by decide)⟩

/-! ### Claim C10 -/

/-- After replacing the row with `inv`'s id by a row with the same id and
player, the owner-scoped lookup finds the replacement. -/
theorem find?_replace (l : List TeamInvitation) (iid c : Nat)
    (inv newinv : TeamInvitation)
    (hfi : l.find? (fun i => i.id == iid && i.player_id == c) = some inv)
    (hid : newinv.id = inv.id) (hpl : newinv.player_id = inv.player_id) :
    (l.map (fun j => if j.id == inv.id then newinv else j)).find?
      (fun i => i.id == iid && i.player_id == c) = some newinv := by
  have hpinv := List.find?_some hfi
  have hpnew : (newinv.id == iid && newinv.player_id == c) = true := by
    rw [hid, hpl]; exact hpinv
  induction l with
  | nil => exact absurd hfi (by simp)
  | cons a as ih =>
    by_cases hpa : (a.id == iid && a.player_id == c) = true
    · have hinva : a = inv := by
        simp only [List.find?_cons, hpa, Option.some.injEq] at hfi
        exact hfi
      subst hinva
      simp [List.find?_cons, hpnew]
    · have hfi' : as.find? (fun i => i.id == iid && i.player_id == c) =
          some inv := by
        simpa only [List.find?_cons, hpa] using hfi
      by_cases hh : (a.id == inv.id) = true
      · simp only [List.map_cons, if_pos hh, List.find?_cons, hpnew]
      · simp only [List.map_cons, if_neg hh, List.find?_cons, hpa]
        exact ih hfi'

/-- C10 confirmed: for a pending, owned, unexpired invitation the respond
operation stores whatever status the caller supplies — any member of the
invitation status enumeration — and in particular a response of `pending`
leaves the invitation pending and respondable again (a follow-up accept
still succeeds), and `expired` can be set directly. -/
theorem C10_respond_stores_any (db : DB) (iid : Nat) (caller : User)
    (now : Int) (inv : TeamInvitation)
    (hfi : db.invitations.find?
      (fun i => i.id == iid && i.player_id == caller.id) = some inv)
    (hpend : inv.status = InvitationStatus.pending)
    (hfresh : now ≤ inv.expires_at) :
    (∀ s, respond_to_invitation db iid s caller now =
      OpResult.ok (putInv db { inv with status := s })
        { inv with status := s }) ∧
    respond_to_invitation
        (putInv db { inv with status := InvitationStatus.pending }) iid
        InvitationStatus.accepted caller now =
      OpResult.ok
        (putInv (putInv db { inv with status := InvitationStatus.pending })
          { inv with status := InvitationStatus.accepted })
        { inv with status := InvitationStatus.accepted } := by
  constructor
  · exact fun s => respond_honored db iid s caller now inv hfi hpend hfresh
  · have hfi2 : (putInv db
        { inv with status := InvitationStatus.pending }).invitations.find?
        (fun i => i.id == iid && i.player_id == caller.id) =
          some { inv with status := InvitationStatus.pending } :=
      find?_replace db.invitations iid caller.id inv
        { inv with status := InvitationStatus.pending } hfi rfl rfl
    exact respond_honored
      (putInv db { inv with status := InvitationStatus.pending }) iid
      InvitationStatus.accepted caller now
      { inv with status := InvitationStatus.pending } hfi2 rfl hfresh

/-- C10 witness: responding `expired` to `invW` stores `expired`; after
responding `pending`, a follow-up accept succeeds. -/
theorem C10_respond_stores_any_witness :
    respond_to_invitation dbW 14 InvitationStatus.expired p1 50 =
      OpResult.ok (putInv dbW { invW with status := InvitationStatus.expired })
        { invW with status := InvitationStatus.expired } ∧
    respond_to_invitation
        (putInv dbW { invW with status := InvitationStatus.pending }) 14
        InvitationStatus.accepted p1 50 =
      OpResult.ok
        (putInv (putInv dbW { invW with status := InvitationStatus.pending })
          { invW with status := InvitationStatus.accepted })
        { invW with status := InvitationStatus.accepted } :=
  ⟨(C10_respond_stores_any dbW 14 p1 50 invW (by decide) (by decide)
      (by decide)).1 InvitationStatus.expired,
   (C10_respond_stores_any dbW 14 p1 50 invW (by decide) (by decide)
      (by decide)).2⟩

end MyCricMate
